import Mathlib

/-!
Verification of the Nakamoto block-miner tenure controller
(`testnet/stacks-node/src/nakamoto_node/miner.rs`).

The Rust worker is shallowly embedded: pure computations become Lean
functions, and every interaction with an external collaborator
(sortition DB, chainstate, mempool, block builder, signer coordinator,
network handle, RNG) is supplied through an explicit environment record
whose fields hold the results those collaborators would return.  Machine
integers are `Nat`; `u64::saturating_sub` is `Nat.sub` (both truncate at
zero), and the one multiplication that can overflow `u64` is reduced
`% 2 ^ 64`.
-/

namespace NakamotoMiner

/-- Consensus hashes are abstracted as natural-number identifiers; only
equality of hashes is ever inspected by the miner. -/
abbrev Hash := Nat

deriving instance DecidableEq for Except

/-- Stacks block identifiers, likewise abstract. -/
abbrev BlockId := Nat

/-- `RewardSet` from `stacks::chainstate::stacks::boot`; the miner only
reads `rewarded_addresses.len()` and otherwise treats it opaquely. -/
structure RewardSet where
  rewarded_addresses : List Nat
deriving DecidableEq, Repr

/-- The process-global atomic counters consulted by the miner thread
(`globals.counters`). -/
structure Counters where
  naka_mined_blocks : Nat
  naka_mined_tenures : Nat
  missed_tenures : Nat
deriving DecidableEq, Repr

def Counters.bump_naka_mined_blocks (c : Counters) : Counters :=
  { c with naka_mined_blocks := c.naka_mined_blocks + 1 }

def Counters.bump_naka_mined_tenures (c : Counters) : Counters :=
  { c with naka_mined_tenures := c.naka_mined_tenures + 1 }

def Counters.bump_missed_tenures (c : Counters) : Counters :=
  { c with missed_tenures := c.missed_tenures + 1 }

/-- `ChainstateError` variants the miner distinguishes; every other
variant is collapsed into `DBError` (the miner only pattern-matches on
`MinerAborted` and `NoTransactionsToMine`). -/
inductive ChainstateError
  | MinerAborted
  | NoTransactionsToMine
  | NetError
  | DBError
deriving DecidableEq, Repr

/-- `NakamotoNodeError` (`super::Error`) variants used by the miner. -/
inductive NakamotoNodeError
  | ParentNotFound
  | BurnchainTipChanged
  | StacksTipChanged
  | NewParentDiscovered
  | MiningFailure (e : ChainstateError)
  | SigningCoordinatorFailure
  | MinerConfigurationFailed
  | BadVrfConstruction
  | MinerSignatureError
  | UnexpectedChainState
  | SnapshotNotFoundForChainTip
  | AcceptFailure (e : ChainstateError)
deriving DecidableEq, Repr

/-- `MinerReason`: why the miner thread was spawned. -/
inductive MinerReason
  | BlockFound
  | Extended (burn_view_consensus_hash : Hash)
deriving DecidableEq, Repr

inductive TransactionVersion
  | Mainnet
  | Testnet
deriving DecidableEq, Repr

inductive TransactionAnchorMode
  | OnChainOnly
deriving DecidableEq, Repr

inductive TenureChangeCause
  | BlockFound
  | Extended
deriving DecidableEq, Repr

/-- `TenureChangePayload` from `stacks::chainstate::stacks`. -/
structure TenureChangePayload where
  tenure_consensus_hash : Hash
  prev_tenure_consensus_hash : Hash
  burn_view_consensus_hash : Hash
  previous_tenure_end : BlockId
  previous_tenure_blocks : Nat
  cause : TenureChangeCause
  pubkey_hash : Nat
deriving DecidableEq, Repr

/-- Transaction payloads the miner constructs.  The coinbase carries the
32-byte payload (abstracted), the optional recipient principal and the
optional VRF proof. -/
inductive TransactionPayload
  | TenureChange (p : TenureChangePayload)
  | Coinbase (payload : Nat) (recipient : Option Nat) (vrf_proof : Option Nat)
deriving DecidableEq, Repr

/-- The parts of a `StacksTransaction` the miner sets. -/
structure StacksTransaction where
  version : TransactionVersion
  chain_id : Nat
  origin_nonce : Nat
  anchor_mode : TransactionAnchorMode
  payload : TransactionPayload
deriving DecidableEq, Repr

/-- Nakamoto block header fields read or written by the miner thread. -/
structure NakamotoBlockHeader where
  chain_length : Nat
  consensus_hash : Hash
  parent_block_id : BlockId
  timestamp : Nat
  miner_signature : Nat
  signer_signature : List Nat
deriving DecidableEq, Repr

structure NakamotoBlock where
  header : NakamotoBlockHeader
  txs : List StacksTransaction
deriving DecidableEq, Repr

/-- The parts of a `StacksHeaderInfo` the miner reads.  `is_nakamoto`
models `anchored_header.as_stacks_nakamoto().is_some()`, and
`nakamoto_timestamp` is that header's `timestamp` field when present. -/
structure StacksHeaderInfo where
  consensus_hash : Hash
  index_block_hash : BlockId
  stacks_block_height : Nat
  burn_header_timestamp : Nat
  is_nakamoto : Bool
  nakamoto_timestamp : Nat
deriving DecidableEq, Repr

/-- `ParentTenureInfo`. -/
structure ParentTenureInfo where
  parent_tenure_blocks : Nat
  parent_tenure_consensus_hash : Hash
deriving DecidableEq, Repr

/-- `ParentStacksBlockInfo`. -/
structure ParentStacksBlockInfo where
  stacks_parent_header : StacksHeaderInfo
  coinbase_nonce : Nat
  parent_tenure : Option ParentTenureInfo
deriving DecidableEq, Repr

/-- `NakamotoTenureInfo` returned by `make_tenure_start_info`. -/
structure NakamotoTenureInfo where
  coinbase_tx : Option StacksTransaction
  tenure_change_tx : Option StacksTransaction
deriving DecidableEq, Repr

/-- The burnchain snapshot fields the miner reads. -/
structure BurnSnapshot where
  consensus_hash : Hash
  block_height : Nat
  total_burn : Nat
  sortition_hash : Nat
deriving DecidableEq, Repr

/-- The configuration keys the miner consults. -/
structure MinerConfig where
  mock_mining : Bool
  mining_key : Option Nat
  min_time_between_blocks_ms : Nat
  mainnet : Bool
  chain_id : Nat
  block_reward_recipient : Option Nat
  fault_injection_block_push_fail_probability : Option Nat
deriving DecidableEq, Repr

/-- The state owned by one `BlockMinerThread`, together with the
process-global counters it mutates. -/
structure WorkerState where
  config : MinerConfig
  keychain_pkh : Nat
  last_block_mined : Option NakamotoBlock
  burn_election_block : BurnSnapshot
  burn_block : BurnSnapshot
  parent_tenure_id : BlockId
  reason : MinerReason
  signer_set_cache : Option RewardSet
  counters : Counters
deriving DecidableEq, Repr

/-! ## Timestamp validation (`validate_timestamp_info`, `validate_timestamp`) -/

/-- The parent timestamp chosen by `validate_timestamp_info`: the
Nakamoto header timestamp when the parent is a Nakamoto block, otherwise
the burn header timestamp. -/
def parentTimestamp (h : StacksHeaderInfo) : Nat :=
  if h.is_nakamoto then h.nakamoto_timestamp else h.burn_header_timestamp

/-- `current_timestamp_secs.saturating_sub(parent_timestamp) * 1000` in
`u64` arithmetic.  `Nat.sub` truncates at zero exactly like
`saturating_sub`; the multiplication is reduced `% 2 ^ 64` because `*`
on `u64` wraps. -/
def timeSinceParentMs (current_timestamp_secs : Nat) (h : StacksHeaderInfo) : Nat :=
  (current_timestamp_secs - parentTimestamp h) * 1000 % 2 ^ 64

/-- `BlockMinerThread::validate_timestamp_info`. -/
def validate_timestamp_info (min_time_between_blocks_ms : Nat)
    (current_timestamp_secs : Nat) (stacks_parent_header : StacksHeaderInfo) : Bool :=
  if timeSinceParentMs current_timestamp_secs stacks_parent_header
      < min_time_between_blocks_ms then
    false
  else
    true

/-- `BlockMinerThread::validate_timestamp`.  The chainstate read of the
candidate's parent header is supplied in `parent_query` (`None` models
both a query error and a missing header; each maps to
`ParentNotFound`). -/
def validate_timestamp (min_time_between_blocks_ms : Nat) (x : NakamotoBlock)
    (parent_query : Option StacksHeaderInfo) : Except NakamotoNodeError Bool :=
  match parent_query with
  | none => .error .ParentNotFound
  | some hdr => .ok (validate_timestamp_info min_time_between_blocks_ms x.header.timestamp hdr)

/-! ## Post-broadcast counter update (`run_miner`, lines 414-419) -/

/-- The counter update performed by `run_miner` immediately after a
successful `broadcast`: bump `naka_mined_blocks`, then bump
`naka_mined_tenures` under the guard `!self.last_block_mined.is_none()`
(the value of `last_block_mined` *before* it is updated to the new
block). -/
def bumpMinedCounters (c : Counters) (last_block_mined : Option NakamotoBlock) : Counters :=
  let c1 := c.bump_naka_mined_blocks
  if !last_block_mined.isNone then
    c1.bump_naka_mined_tenures
  else
    c1

/-! ## Burn-tip check (`check_burn_tip_changed`) -/

/-- `BlockMinerThread::check_burn_tip_changed`.  `burn_block_ch` is
`self.burn_block.consensus_hash`; `cur_tip_ch` is the consensus hash of
the canonical burn chain tip read from the sortition DB.  On divergence
it bumps `missed_tenures` and returns `BurnchainTipChanged`. -/
def check_burn_tip_changed (burn_block_ch : Hash) (counters : Counters)
    (cur_tip_ch : Hash) : Except NakamotoNodeError Unit × Counters :=
  if cur_tip_ch ≠ burn_block_ch then
    (.error .BurnchainTipChanged, counters.bump_missed_tenures)
  else
    (.ok (), counters)

/-! ## Fault injection and P2P broadcast (`fault_injection_broadcast_fail`,
`broadcast_p2p`) -/

/-- `BlockMinerThread::fault_injection_broadcast_fail`.  `rng_throw`
models the `u8` drawn from `gen_range(0..100)`. -/
def fault_injection_broadcast_fail (cfg : MinerConfig) (rng_throw : Nat) : Bool :=
  let drop_prob := min (cfg.fault_injection_block_push_fail_probability.getD 0) 100
  if drop_prob > 0 then
    rng_throw % 100 < drop_prob
  else
    false

/-- Environment for one `broadcast_p2p` call: results of the external
calls it makes, in program order. -/
structure BroadcastP2PEnv where
  /-- `fault_injection_skip_block_broadcast()` (the `TEST_SKIP_P2P_BROADCAST` hook). -/
  skip : Bool
  /-- whether `sort_db.index_handle_at_ch` succeeds. -/
  index_handle_ok : Bool
  /-- whether `headers_conn_and_staging_tx_begin` succeeds. -/
  staging_ok : Bool
  /-- result of `NakamotoChainState::accept_block`. -/
  accept_result : Except ChainstateError Bool
  /-- whether `staging_tx.commit()` succeeds. -/
  commit_ok : Bool
  /-- the RNG draw consumed by `fault_injection_broadcast_fail`. -/
  rng_throw : Nat
deriving DecidableEq, Repr

/-- Observable outcome of `broadcast_p2p`: its return value, whether the
staging transaction was committed, and whether the P2P `NakamotoBlocks`
push was handed to the network handle. -/
structure BroadcastP2POut where
  result : Except ChainstateError Unit
  committed : Bool
  pushed : Bool
deriving DecidableEq, Repr

/-- `BlockMinerThread::broadcast_p2p`.  A failure of the network send
itself is only logged, so it does not affect the result. -/
def broadcast_p2p (cfg : MinerConfig) (env : BroadcastP2PEnv) : BroadcastP2POut :=
  if env.skip then
    ⟨.ok (), false, false⟩
  else if !env.index_handle_ok then
    ⟨.error .DBError, false, false⟩
  else if !env.staging_ok then
    ⟨.error .DBError, false, false⟩
  else
    match env.accept_result with
    | .error e => ⟨.error e, false, false⟩
    | .ok accepted =>
      if !env.commit_ok then
        ⟨.error .DBError, false, false⟩
      else if !accepted then
        ⟨.ok (), true, false⟩
      else if fault_injection_broadcast_fail cfg env.rng_throw then
        ⟨.ok (), true, false⟩
      else
        ⟨.ok (), true, true⟩

/-! ## Tenure start info (`get_coinbase_recipient`,
`generate_tenure_change_tx`, `generate_coinbase_tx`,
`make_tenure_start_info`) -/

/-- `StacksEpochId` is ordered; only the comparison against `Epoch21`
matters to the miner, so epochs are numbered (2.1 is 21). -/
abbrev StacksEpochId := Nat

def Epoch21 : StacksEpochId := 21

/-- `BlockMinerThread::get_coinbase_recipient`. -/
def get_coinbase_recipient (cfg : MinerConfig) (epoch_id : StacksEpochId) : Option Nat :=
  if epoch_id < Epoch21 ∧ cfg.block_reward_recipient.isSome then
    none
  else
    cfg.block_reward_recipient

/-- `BlockMinerThread::generate_tenure_change_tx`.  The keychain
signing only fills the sponsor/signature data, which the claims never
inspect, so it is elided. -/
def generate_tenure_change_tx (cfg : MinerConfig) (nonce : Nat)
    (payload : TenureChangePayload) : StacksTransaction :=
  { version := if cfg.mainnet then .Mainnet else .Testnet
    chain_id := cfg.chain_id
    origin_nonce := nonce
    anchor_mode := .OnChainOnly
    payload := .TenureChange payload }

/-- `BlockMinerThread::generate_coinbase_tx`. -/
def generate_coinbase_tx (cfg : MinerConfig) (nonce : Nat)
    (epoch_id : StacksEpochId) (vrf_proof : Nat) : StacksTransaction :=
  { version := if cfg.mainnet then .Mainnet else .Testnet
    chain_id := cfg.chain_id
    origin_nonce := nonce
    anchor_mode := .OnChainOnly
    payload := .Coinbase 0 (get_coinbase_recipient cfg epoch_id) (some vrf_proof) }

/-- Modelled from the spec: `TenureChangePayload::extend` lives in
`stacks::chainstate::stacks`, outside this repository slice.  Per the
spec it yields a `TenureChange` with cause `Extended`,
`burn_view_consensus_hash` equal to the given burn view, and
`previous_tenure_blocks` equal to the given current tenure length; the
end pointer is the given last tenure block id. -/
def TenureChangePayload.extend (p : TenureChangePayload) (burn_view_consensus_hash : Hash)
    (last_tenure_block_id : BlockId) (num_blocks_so_far : Nat) : TenureChangePayload :=
  { p with
    cause := .Extended
    burn_view_consensus_hash := burn_view_consensus_hash
    previous_tenure_end := last_tenure_block_id
    previous_tenure_blocks := num_blocks_so_far }

/-- `BlockMinerThread::make_tenure_start_info`.  `tenure_len` is the
result of the external `NakamotoChainState::get_nakamoto_tenure_length`
read at the parent block id (only consulted on the `Extended` path). -/
def make_tenure_start_info (s : WorkerState) (parent_block_info : ParentStacksBlockInfo)
    (vrf_proof : Nat) (target_epoch_id : StacksEpochId)
    (tenure_len : Except ChainstateError Nat) :
    Except NakamotoNodeError NakamotoTenureInfo :=
  let current_miner_nonce := parent_block_info.coinbase_nonce
  match parent_block_info.parent_tenure with
  | none => .ok ⟨none, none⟩
  | some parent_tenure_info =>
    if s.last_block_mined.isSome then
      .ok ⟨none, none⟩
    else
      let parent_block_id := parent_block_info.stacks_parent_header.index_block_hash
      -- `u32::try_from(parent_tenure_blocks)` only converts; the `expect`
      -- aborts the process on overflow and is not modelled.
      let payload : TenureChangePayload :=
        { tenure_consensus_hash := s.burn_election_block.consensus_hash
          prev_tenure_consensus_hash := parent_tenure_info.parent_tenure_consensus_hash
          burn_view_consensus_hash := s.burn_election_block.consensus_hash
          previous_tenure_end := parent_block_id
          previous_tenure_blocks := parent_tenure_info.parent_tenure_blocks
          cause := .BlockFound
          pubkey_hash := s.keychain_pkh }
      match s.reason with
      | .BlockFound =>
        let tenure_change_tx := generate_tenure_change_tx s.config current_miner_nonce payload
        let coinbase_tx :=
          generate_coinbase_tx s.config (current_miner_nonce + 1) target_epoch_id vrf_proof
        .ok ⟨some coinbase_tx, some tenure_change_tx⟩
      | .Extended burn_view_consensus_hash =>
        match tenure_len with
        | .error e => .error (.MiningFailure e)
        | .ok num_blocks_so_far =>
          let payload2 :=
            TenureChangePayload.extend payload burn_view_consensus_hash parent_block_id
              num_blocks_so_far
          .ok ⟨none, some (generate_tenure_change_tx s.config current_miner_nonce payload2)⟩

/-! ## Parent resolution (`ParentStacksBlockInfo::lookup`,
`load_block_parent_info`) -/

/-- Environment for one `ParentStacksBlockInfo::lookup` call: the values
its external reads return, in program order.  The parent snapshot read
only feeds logging and two `expect`s, so it is not modelled. -/
structure LookupEnv where
  /-- consensus hash of the canonical burn chain tip re-read inside `lookup`. -/
  burn_chain_tip_ch : Hash
  /-- `get_block_header(parent_tenure_id)`; `none` models both a query
  error and a missing header (each maps to `ParentNotFound`). -/
  parent_tenure_hdr : Option StacksHeaderInfo
  /-- `get_highest_block_header_in_tenure` for the parent tenure. -/
  last_parent_tenure_hdr : Option StacksHeaderInfo
  /-- whether `index_handle_at_block` succeeds. -/
  index_handle_ok : Bool
  /-- the miner origin account nonce read at the parent's index block. -/
  account_nonce : Nat
deriving DecidableEq, Repr

/-- `ParentStacksBlockInfo::lookup`. -/
def ParentStacksBlockInfo.lookup (env : LookupEnv) (check_burn_block_ch : Hash)
    (stacks_tip_header : StacksHeaderInfo) :
    Except NakamotoNodeError ParentStacksBlockInfo :=
  if env.burn_chain_tip_ch ≠ check_burn_block_ch then
    .error .BurnchainTipChanged
  else
    match env.parent_tenure_hdr with
    | none => .error .ParentNotFound
    | some parent_tenure_header =>
      let tenureInfoRes : Except NakamotoNodeError (Option ParentTenureInfo) :=
        if stacks_tip_header.consensus_hash = parent_tenure_header.consensus_hash then
          if parent_tenure_header.is_nakamoto then
            match env.last_parent_tenure_hdr with
            | none => .error .ParentNotFound
            | some last_parent_tenure_header =>
              if stacks_tip_header.index_block_hash ≠
                  last_parent_tenure_header.index_block_hash then
                .error .NewParentDiscovered
              else
                .ok (some
                  { parent_tenure_blocks :=
                      1 + last_parent_tenure_header.stacks_block_height
                        - parent_tenure_header.stacks_block_height
                    parent_tenure_consensus_hash := parent_tenure_header.consensus_hash })
          else
            .ok (some
              { parent_tenure_blocks := 1
                parent_tenure_consensus_hash := parent_tenure_header.consensus_hash })
        else
          .ok none
      match tenureInfoRes with
      | .error e => .error e
      | .ok parent_tenure_info =>
        if !env.index_handle_ok then
          .error .UnexpectedChainState
        else
          .ok { stacks_parent_header := stacks_tip_header
                coinbase_nonce := env.account_nonce
                parent_tenure := parent_tenure_info }

/-- Environment for one `load_block_parent_info` call. -/
structure LbpiEnv where
  /-- the canonical Stacks tip `(ch, bh)`; `none` models a read error. -/
  stacks_tip : Option (Hash × Nat)
  /-- `get_highest_block_header_in_tenure` for the elected tenure;
  `Except.error` is a query error (→ `ParentNotFound`), `Except.ok none`
  means the tenure is empty on the canonical fork. -/
  tenure_tip_query : Except Unit (Option StacksHeaderInfo)
  /-- `get_block_header(parent_tenure_id)` in the fallback branch. -/
  parent_tenure_hdr : Except Unit (Option StacksHeaderInfo)
  /-- `get_highest_block_header_in_tenure` for the parent tenure. -/
  parent_tenure_tip_query : Except Unit (Option StacksHeaderInfo)
  /-- `get_block_header(parent_tenure_id)` in the epoch2 branch. -/
  epoch2_hdr : Except Unit (Option StacksHeaderInfo)
  /-- environment for the nested `ParentStacksBlockInfo::lookup`. -/
  lookup : LookupEnv
deriving DecidableEq, Repr

/-- The header-selection phase of `load_block_parent_info` (the `if let
Some(tenure_tip) ... else ...` chain choosing the parent header). -/
def chooseParentHeader (env : LbpiEnv) : Except NakamotoNodeError StacksHeaderInfo :=
  match env.tenure_tip_query with
  | .error _ => .error .ParentNotFound
  | .ok (some tenure_tip) => .ok tenure_tip
  | .ok none =>
    match env.parent_tenure_hdr with
    | .error _ => .error .ParentNotFound
    | .ok none => .error .ParentNotFound
    | .ok (some _) =>
      match env.parent_tenure_tip_query with
      | .error _ => .error .ParentNotFound
      | .ok (some header) => .ok header
      | .ok none =>
        match env.epoch2_hdr with
        | .error _ => .error .ParentNotFound
        | .ok none => .error .ParentNotFound
        | .ok (some epoch2_header) => .ok epoch2_header

/-- `BlockMinerThread::load_block_parent_info`.  On a
`BurnchainTipChanged` failure from `lookup` it bumps the
`missed_tenures` counter before propagating the error. -/
def load_block_parent_info (burn_block_ch : Hash) (counters : Counters)
    (env : LbpiEnv) : Except NakamotoNodeError ParentStacksBlockInfo × Counters :=
  match env.stacks_tip with
  | none => (.error .ParentNotFound, counters)
  | some _ =>
    match chooseParentHeader env with
    | .error e => (.error e, counters)
    | .ok stacks_tip_header =>
      match ParentStacksBlockInfo.lookup env.lookup burn_block_ch stacks_tip_header with
      | .ok parent_info => (.ok parent_info, counters)
      | .error .BurnchainTipChanged =>
        (.error .BurnchainTipChanged, counters.bump_missed_tenures)
      | .error e => (.error e, counters)

/-! ## Signer-set cache (`load_signer_set`) -/

/-- `BlockMinerThread::load_signer_set` on the cache field.
`load_result` collapses every external step of the cache-miss path (DB
opens, `load_nakamoto_reward_set`, `known_selected_anchor_block_owned`):
`Except.ok` is the reward set it produces, `Except.error` any of its
failures (each maps to `SigningCoordinatorFailure`).  Returns the result
and the updated cache. -/
def load_signer_set (cache : Option RewardSet) (load_result : Except Unit RewardSet) :
    Except NakamotoNodeError RewardSet × Option RewardSet :=
  match cache with
  | some set => (.ok set, some set)
  | none =>
    match load_result with
    | .error _ => (.error .SigningCoordinatorFailure, none)
    | .ok reward_set => (.ok reward_set, some reward_set)

/-! ## Block assembly (`mine_block`) -/

/-- Environment for one `mine_block` call: results of its external
reads, in program order. -/
structure MineEnv where
  /-- collapsed cache-miss path of `load_signer_set`. -/
  signer_load : Except Unit RewardSet
  /-- canonical burn tip at the first `check_burn_tip_changed`. -/
  tip1 : Hash
  /-- `get_stacks_epoch(burn_block.block_height + 1)`; `none` is a query
  error (→ `SnapshotNotFoundForChainTip`). -/
  epoch_query : Option StacksEpochId
  /-- environment of the nested `load_block_parent_info`. -/
  lbpi : LbpiEnv
  /-- the VRF proof produced by `make_vrf_proof` (which always returns
  `Some` in the source). -/
  vrf_proof : Nat
  /-- `get_nakamoto_tenure_length` read, used by `make_tenure_start_info`. -/
  tenure_len : Except ChainstateError Nat
  /-- `get_epoch_time_secs()` at the timestamp check. -/
  now : Nat
  /-- whether `index_handle_at_ch(burn_block.consensus_hash)` succeeds. -/
  index_handle_ok : Bool
  /-- result of `NakamotoBlockBuilder::build_nakamoto_block`. -/
  builder : Except ChainstateError NakamotoBlock
  /-- the miner signature, `none` when signing fails. -/
  sign_result : Option Nat
  /-- canonical burn tip at the final `check_burn_tip_changed`. -/
  tip2 : Hash
deriving DecidableEq, Repr

/-- Observable outcome of `mine_block`: its return value, the counters
and signer-set cache afterwards, and whether the block builder was
invoked. -/
structure MineOut where
  result : Except NakamotoNodeError NakamotoBlock
  counters : Counters
  cache : Option RewardSet
  builder_invoked : Bool
deriving DecidableEq, Repr

/-- The body of `mine_block` after the signer set has been loaded, in
source order: first burn-tip check, epoch query, parent resolution, VRF
proof, first-block guard, tenure start info, timestamp pre-check, block
builder, empty-block check, miner signature, final burn-tip check.
Returns the result, the counters afterwards, and whether the block
builder was invoked. -/
def mine_block_body (s : WorkerState) (reward_set : RewardSet) (env : MineEnv) :
    Except NakamotoNodeError NakamotoBlock × Counters × Bool :=
  match check_burn_tip_changed s.burn_block.consensus_hash s.counters env.tip1 with
  | (.error e, c1) => (.error e, c1, false)
  | (.ok _, c1) =>
    match env.epoch_query with
    | none => (.error .SnapshotNotFoundForChainTip, c1, false)
    | some target_epoch_id =>
      match load_block_parent_info s.burn_block.consensus_hash c1 env.lbpi with
      | (.error e, c2) => (.error e, c2, false)
      | (.ok parent_block_info, c2) =>
        let vrf_proof := env.vrf_proof
        if s.last_block_mined.isNone && parent_block_info.parent_tenure.isNone then
          (.error .ParentNotFound, c2, false)
        else
          match make_tenure_start_info s parent_block_info vrf_proof target_epoch_id
              env.tenure_len with
          | .error e => (.error e, c2, false)
          | .ok _tenure_start_info =>
            let _signer_bitvec_len := reward_set.rewarded_addresses.length
            if !validate_timestamp_info s.config.min_time_between_blocks_ms env.now
                parent_block_info.stacks_parent_header then
              (.error (.MiningFailure .MinerAborted), c2, false)
            else if !env.index_handle_ok then
              (.error .UnexpectedChainState, c2, false)
            else
              match env.builder with
              | .error e => (.error (.MiningFailure e), c2, true)
              | .ok block0 =>
                if block0.txs.isEmpty then
                  (.error (.MiningFailure .NoTransactionsToMine), c2, true)
                else
                  match env.sign_result with
                  | none => (.error .MinerSignatureError, c2, true)
                  | some sig =>
                    let block :=
                      { block0 with header := { block0.header with miner_signature := sig } }
                    match check_burn_tip_changed s.burn_block.consensus_hash c2 env.tip2 with
                    | (.error e, c3) => (.error e, c3, true)
                    | (.ok _, c3) => (.ok block, c3, true)

/-- `BlockMinerThread::mine_block`: load the signer set (which may
populate the cache), then run the body. -/
def mine_block (s : WorkerState) (env : MineEnv) : MineOut :=
  match load_signer_set s.signer_set_cache env.signer_load with
  | (.error e, cache1) => ⟨.error e, s.counters, cache1, false⟩
  | (.ok reward_set, cache1) =>
    match mine_block_body s reward_set env with
    | (r, c, builder_invoked) => ⟨r, c, cache1, builder_invoked⟩

/-! ## Signature gathering (`gather_signatures`) -/

/-- Environment for one `gather_signatures` call. -/
structure GatherEnv where
  /-- whether the sortition DB open succeeds. -/
  sortdb_ok : Bool
  /-- collapsed cache-miss path of `load_signer_set`. -/
  signer_load : Except Unit RewardSet
  /-- whether `SignCoordinator::new` and the chainstate open succeed. -/
  coord_ok : Bool
  /-- result of `run_sign_v0`. -/
  sign_result : Except NakamotoNodeError (List Nat)
deriving DecidableEq, Repr

/-- Observable outcome of `gather_signatures`: its return value, the
signer-set cache afterwards, and whether a `SignCoordinator` was
instantiated. -/
structure GatherOut where
  result : Except NakamotoNodeError (RewardSet × List Nat)
  cache : Option RewardSet
  coordinator_instantiated : Bool
deriving DecidableEq, Repr

/-- `BlockMinerThread::gather_signatures`. -/
def gather_signatures (cfg : MinerConfig) (cache : Option RewardSet)
    (env : GatherEnv) : GatherOut :=
  if cfg.mining_key.isNone then
    ⟨.error .MinerConfigurationFailed, cache, false⟩
  else if !env.sortdb_ok then
    ⟨.error .SigningCoordinatorFailure, cache, false⟩
  else
    match load_signer_set cache env.signer_load with
    | (.error e, cache1) => ⟨.error e, cache1, false⟩
    | (.ok reward_set, cache1) =>
      if cfg.mock_mining then
        ⟨.ok (reward_set, []), cache1, false⟩
      else if !env.coord_ok then
        ⟨.error .SigningCoordinatorFailure, cache1, true⟩
      else
        match env.sign_result with
        | .error e => ⟨.error e, cache1, true⟩
        | .ok sigs => ⟨.ok (reward_set, sigs), cache1, true⟩

/-! ## Broadcast (`broadcast`) -/

/-- Environment for one `broadcast` call. -/
structure BroadcastEnv where
  p2p : BroadcastP2PEnv
  /-- `get_rpc_loopback()`. -/
  rpc_loopback : Option Nat
  /-- whether `send_miners_message` succeeds. -/
  send_miners_ok : Bool
deriving DecidableEq, Repr

/-- `BlockMinerThread::broadcast`: P2P persist-and-push, then the
stacker-DB `BlockPushed` message. -/
def broadcast (cfg : MinerConfig) (env : BroadcastEnv) : Except NakamotoNodeError Unit :=
  if cfg.mining_key.isNone then
    .error .MinerConfigurationFailed
  else
    match (broadcast_p2p cfg env.p2p).result with
    | .error e => .error (.AcceptFailure e)
    | .ok _ =>
      match env.rpc_loopback with
      | none => .error .MinerConfigurationFailed
      | some _ =>
        if env.send_miners_ok then .ok () else .error .SigningCoordinatorFailure

/-! ## The worker loop (`run_miner`) -/

/-- Environment for one pass of the inner mining loop. -/
structure AttemptEnv where
  /-- canonical burn tip at the mock-mining preflight check. -/
  preTip : Hash
  /-- environment of the preflight `load_block_parent_info`. -/
  preLbpi : LbpiEnv
  /-- environment of the `mine_block` call. -/
  mine : MineEnv
  /-- the chainstate read of the candidate's parent inside
  `validate_timestamp`. -/
  validateParent : Option StacksHeaderInfo
deriving DecidableEq, Repr

/-- How one pass of the inner mining loop ends. -/
inductive AttemptStep
  | retry
  | found (b : NakamotoBlock)
  | noneFound
  | exitErr (e : NakamotoNodeError)
deriving DecidableEq, Repr

/-- Fold a `mine_block` outcome back into the worker state. -/
def applyMine (s : WorkerState) (out : MineOut) : WorkerState :=
  { s with counters := out.counters, signer_set_cache := out.cache }

/-- The mock-mining preflight at the top of the inner loop: check the
burn tip, then check that the parent is processed; `ParentNotFound`
sleeps and retries, any other error exits the worker. -/
def mockPreflight (s : WorkerState) (env : AttemptEnv) : Option AttemptStep × WorkerState :=
  if s.config.mock_mining then
    match check_burn_tip_changed s.burn_block.consensus_hash s.counters env.preTip with
    | (.error e, c) => (some (.exitErr e), { s with counters := c })
    | (.ok _, c) =>
      match load_block_parent_info s.burn_block.consensus_hash c env.preLbpi with
      | (.ok _, c2) => (none, { s with counters := c2 })
      | (.error .ParentNotFound, c2) => (some .retry, { s with counters := c2 })
      | (.error e, c2) => (some (.exitErr e), { s with counters := c2 })
  else
    (none, s)

/-- One pass of the inner mining loop of `run_miner`: mock preflight,
`mine_block`, then the dispatch on its result (`validate_timestamp`
retry, `MinerAborted` retry, `NoTransactionsToMine` gives up on this
tenure pass, any other error exits the worker as
`MiningFailure(MinerAborted)` after `raise_initiative`). -/
def mineAttempt (s : WorkerState) (env : AttemptEnv) : AttemptStep × WorkerState :=
  match mockPreflight s env with
  | (some step, s1) => (step, s1)
  | (none, s1) =>
    let out := mine_block s1 env.mine
    let s2 := applyMine s1 out
    match out.result with
    | .ok x =>
      match validate_timestamp s2.config.min_time_between_blocks_ms x env.validateParent with
      | .error e => (.exitErr e, s2)
      | .ok false => (.retry, s2)
      | .ok true => (.found x, s2)
    | .error (.MiningFailure .MinerAborted) => (.retry, s2)
    | .error (.MiningFailure .NoTransactionsToMine) => (.noneFound, s2)
    | .error _ => (.exitErr (.MiningFailure .MinerAborted), s2)

/-- How the inner mining loop ends; `stalled` marks exhaustion of the
supplied environment list (the loop is still running at the cut). -/
inductive InnerOutcome
  | found (b : NakamotoBlock)
  | noneFound
  | exitErr (e : NakamotoNodeError)
  | stalled
deriving DecidableEq, Repr

/-- The inner mining loop, driven by one environment per pass. -/
def mineLoop (s : WorkerState) : List AttemptEnv → WorkerState × InnerOutcome
  | [] => (s, .stalled)
  | env :: rest =>
    match mineAttempt s env with
    | (.retry, s1) => mineLoop s1 rest
    | (.found b, s1) => (s1, .found b)
    | (.noneFound, s1) => (s1, .noneFound)
    | (.exitErr e, s1) => (s1, .exitErr e)

/-- Environment for one pass of the outer loop of `run_miner`. -/
structure IterEnv where
  attempts : List AttemptEnv
  gather : GatherEnv
  bcast : BroadcastEnv
  /-- whether the sortition DB reopen before the interim wait succeeds. -/
  sortdb_open_ok : Bool
  /-- the canonical burn tips observed at each 200 ms tick of the
  interim wait (the list length is how many ticks fit in
  `wait_on_interim_blocks`). -/
  interimTips : List Hash
deriving DecidableEq, Repr

/-- How one pass of the outer loop ends. -/
inductive IterResult
  | next
  | exitErr (e : NakamotoNodeError)
  | stalled
deriving DecidableEq, Repr

/-- The interim wait: every 200 ms tick re-checks the burn tip and
exits with `BurnchainTipChanged` on the first divergence. -/
def interimWait (burn_block_ch : Hash) (counters : Counters) :
    List Hash → Counters × Option NakamotoNodeError
  | [] => (counters, none)
  | t :: ts =>
    match check_burn_tip_changed burn_block_ch counters t with
    | (.error _, c) => (c, some .BurnchainTipChanged)
    | (.ok _, c) => interimWait burn_block_ch c ts

/-- The tail of one outer-loop pass: reopen the sortition DB (failure
merely retries the loop) and run the interim wait. -/
def interimPhase (s : WorkerState) (env : IterEnv) : WorkerState × IterResult :=
  if !env.sortdb_open_ok then
    (s, .next)
  else
    match interimWait s.burn_block.consensus_hash s.counters env.interimTips with
    | (c, some e) => ({ s with counters := c }, .exitErr e)
    | (c, none) => ({ s with counters := c }, .next)

/-- What `run_miner` does once the inner loop found a block: gather
signatures (tip-change errors exit the worker, others retry), attach the
signer signatures, broadcast (failure retries), then bump the mined
counters, update `last_block_mined`, and enter the interim wait. -/
def afterFound (s : WorkerState) (env : IterEnv) (b : NakamotoBlock) :
    WorkerState × IterResult :=
  let g := gather_signatures s.config s.signer_set_cache env.gather
  let s1 := { s with signer_set_cache := g.cache }
  match g.result with
  | .error .StacksTipChanged => (s1, .exitErr .StacksTipChanged)
  | .error .BurnchainTipChanged => (s1, .exitErr .BurnchainTipChanged)
  | .error _ => (s1, .next)
  | .ok (_reward_set, sigs) =>
    let b1 := { b with header := { b.header with signer_signature := sigs } }
    match broadcast s1.config env.bcast with
    | .error _ => (s1, .next)
    | .ok _ =>
      let s2 := { s1 with
        counters := bumpMinedCounters s1.counters s1.last_block_mined,
        last_block_mined := some b1 }
      interimPhase s2 env

/-- One pass of the outer loop of `run_miner`. -/
def minerIteration (s : WorkerState) (env : IterEnv) : WorkerState × IterResult :=
  match mineLoop s env.attempts with
  | (s1, .stalled) => (s1, .stalled)
  | (s1, .exitErr e) => (s1, .exitErr e)
  | (s1, .found b) => afterFound s1 env b
  | (s1, .noneFound) => interimPhase s1 env

/-- `BlockMinerThread::run_miner`, driven by one environment per outer
iteration.  Returns the final worker state and `some e` when the worker
exited with an error (`none` when the environment list ran out with the
loop still live). -/
def run_miner (s : WorkerState) : List IterEnv → WorkerState × Option NakamotoNodeError
  | [] => (s, none)
  | env :: rest =>
    match minerIteration s env with
    | (s1, .exitErr e) => (s1, some e)
    | (s1, .stalled) => (s1, none)
    | (s1, .next) => run_miner s1 rest

/-! ## Concrete fixtures used by witnesses and counterexamples -/

/-- A Nakamoto parent header: tenure 9, index block 7, height 3,
timestamp 100 s. -/
def sampleParentHeader : StacksHeaderInfo := ⟨9, 7, 3, 90, true, 100⟩

def sampleLookupEnv : LookupEnv := ⟨0, some sampleParentHeader, some sampleParentHeader, true, 4⟩

def sampleLbpiEnv : LbpiEnv :=
  ⟨some (9, 5), .ok (some sampleParentHeader), .ok none, .ok none, .ok none, sampleLookupEnv⟩

def sampleBurn : BurnSnapshot := ⟨0, 100, 50, 77⟩

def sampleConfig : MinerConfig := ⟨false, some 1, 1000, false, 5, none, none⟩

def sampleState : WorkerState :=
  ⟨sampleConfig, 11, none, sampleBurn, sampleBurn, 3, .BlockFound, some ⟨[]⟩, ⟨0, 0, 0⟩⟩

def sampleTx : StacksTransaction := ⟨.Testnet, 5, 0, .OnChainOnly, .Coinbase 0 none (some 5)⟩

def sampleBlock : NakamotoBlock := ⟨⟨5, 9, 7, 101, 0, []⟩, [sampleTx]⟩

def sampleMineEnv : MineEnv :=
  ⟨.ok ⟨[]⟩, 0, some 30, sampleLbpiEnv, 5, .ok 1, 101, true, .ok sampleBlock, some 2, 0⟩

/-- Fixtures for the timestamp-gate counterexample:
`min_time_between_blocks_ms = 1500`, parent timestamp 0, attempt at 1 s. -/
def cxParentHeader : StacksHeaderInfo := ⟨9, 7, 3, 0, true, 0⟩

def cxLookupEnv : LookupEnv := ⟨0, some cxParentHeader, some cxParentHeader, true, 4⟩

def cxLbpiEnv : LbpiEnv :=
  ⟨some (9, 5), .ok (some cxParentHeader), .ok none, .ok none, .ok none, cxLookupEnv⟩

def cxConfig : MinerConfig := ⟨false, some 1, 1500, false, 5, none, none⟩

def cxState : WorkerState :=
  ⟨cxConfig, 11, none, sampleBurn, sampleBurn, 3, .BlockFound, some ⟨[]⟩, ⟨0, 0, 0⟩⟩

def cxMineEnv : MineEnv :=
  ⟨.ok ⟨[]⟩, 0, some 30, cxLbpiEnv, 5, .ok 1, 1, true, .ok sampleBlock, some 2, 0⟩

/-- Fixture for a resolution whose chosen parent is not in the parent
tenure (consensus hash 8 ≠ 9), so `parent_tenure = none`. -/
def c6LookupEnv : LookupEnv := ⟨0, some ⟨8, 6, 2, 80, true, 90⟩, none, true, 4⟩

def c6LbpiEnv : LbpiEnv :=
  ⟨some (9, 5), .ok (some sampleParentHeader), .ok none, .ok none, .ok none, c6LookupEnv⟩

def c6MineEnv : MineEnv :=
  ⟨.ok ⟨[]⟩, 0, some 30, c6LbpiEnv, 5, .ok 1, 101, true, .ok sampleBlock, some 2, 0⟩

def c8State : WorkerState :=
  ⟨sampleConfig, 11, none, sampleBurn, sampleBurn, 3, .BlockFound, some ⟨[3]⟩, ⟨0, 0, 0⟩⟩

def c7Config : MinerConfig := ⟨true, some 1, 0, false, 5, none, none⟩

end NakamotoMiner

namespace NakamotoMiner

/-! ## Helper lemmas: where `missed_tenures` is bumped, and how the
signer-set cache evolves -/

theorem check_burn_tip_changed_ok (ch : Hash) (c : Counters) :
    check_burn_tip_changed ch c ch = (.ok (), c) := by
  simp [check_burn_tip_changed]

theorem validate_timestamp_info_eq_false (m cur : Nat) (hdr : StacksHeaderInfo) :
    validate_timestamp_info m cur hdr = false ↔ timeSinceParentMs cur hdr < m := by
  unfold validate_timestamp_info
  by_cases h : timeSinceParentMs cur hdr < m <;> simp [h]

theorem load_signer_set_cached (rs : RewardSet) (load : Except Unit RewardSet) :
    load_signer_set (some rs) load = (.ok rs, some rs) := rfl

theorem mine_block_result (s : WorkerState) (env : MineEnv) (rs : RewardSet)
    (h : s.signer_set_cache = some rs) :
    (mine_block s env).result = (mine_block_body s rs env).1 := by
  unfold mine_block
  rw [h]
  simp only [load_signer_set_cached]

theorem mine_block_builder_invoked (s : WorkerState) (env : MineEnv) (rs : RewardSet)
    (h : s.signer_set_cache = some rs) :
    (mine_block s env).builder_invoked = (mine_block_body s rs env).2.2 := by
  unfold mine_block
  rw [h]
  simp only [load_signer_set_cached]

theorem check_burn_tip_changed_cases (ch : Hash) (c : Counters) (t : Hash) :
    check_burn_tip_changed ch c t = (.ok (), c) ∨
    (t ≠ ch ∧
      check_burn_tip_changed ch c t = (.error .BurnchainTipChanged, c.bump_missed_tenures)) := by
  unfold check_burn_tip_changed
  by_cases h : t = ch
  · left; simp [h]
  · right; exact ⟨h, by simp [h]⟩

theorem load_block_parent_info_cases (ch : Hash) (c : Counters) (env : LbpiEnv) :
    (load_block_parent_info ch c env).2 = c ∨
    ((load_block_parent_info ch c env).2 = c.bump_missed_tenures ∧
      (load_block_parent_info ch c env).1 = .error .BurnchainTipChanged) := by
  unfold load_block_parent_info
  split
  · left; rfl
  · split
    · left; rfl
    · split
      · left; rfl
      · right; exact ⟨rfl, rfl⟩
      · left; rfl

theorem mine_block_body_missed (s : WorkerState) (reward_set : RewardSet) (env : MineEnv) :
    (mine_block_body s reward_set env).2.1 = s.counters ∨
    ((mine_block_body s reward_set env).2.1 = s.counters.bump_missed_tenures ∧
      (mine_block_body s reward_set env).1 = .error .BurnchainTipChanged) := by
  unfold mine_block_body
  rcases check_burn_tip_changed_cases s.burn_block.consensus_hash s.counters env.tip1 with
    hc1 | ⟨_, hc1⟩ <;> simp only [hc1]
  · rcases henv : env.epoch_query with _ | ep
    · simp
    · rcases hlb : load_block_parent_info s.burn_block.consensus_hash s.counters env.lbpi with
        ⟨lres, lc⟩
      have hl := load_block_parent_info_cases s.burn_block.consensus_hash s.counters env.lbpi
      rw [hlb] at hl
      dsimp only at hl
      cases lres with
      | error e =>
        rcases hl with hl | ⟨hl2, hl1⟩
        · subst hl; simp
        · cases hl1; subst hl2; simp
      | ok parent_block_info =>
        rcases hl with hl | ⟨_, hl1⟩
        · subst hl
          dsimp only
          split
          · simp
          · split
            · simp
            · split
              · simp
              · split
                · simp
                · split
                  · simp
                  · split
                    · simp
                    · split
                      · simp
                      · rcases check_burn_tip_changed_cases s.burn_block.consensus_hash
                          s.counters env.tip2 with hc2 | ⟨_, hc2⟩ <;> simp [hc2]
        · exact absurd hl1 (by simp)
  · simp

theorem mine_block_missed (s : WorkerState) (env : MineEnv) :
    (mine_block s env).counters = s.counters ∨
    ((mine_block s env).counters = s.counters.bump_missed_tenures ∧
      (mine_block s env).result = .error .BurnchainTipChanged) := by
  unfold mine_block
  rcases hload : load_signer_set s.signer_set_cache env.signer_load with ⟨res, cache1⟩
  cases res with
  | error e => simp
  | ok reward_set =>
    dsimp only
    have hb := mine_block_body_missed s reward_set env
    rcases hbody : mine_block_body s reward_set env with ⟨r, c, bi⟩
    rw [hbody] at hb
    dsimp only at hb
    dsimp only
    exact hb

theorem bumpMinedCounters_missed (c : Counters) (l : Option NakamotoBlock) :
    (bumpMinedCounters c l).missed_tenures = c.missed_tenures := by
  unfold bumpMinedCounters
  cases l <;>
    simp [Counters.bump_naka_mined_blocks, Counters.bump_naka_mined_tenures]

theorem mockPreflight_missed (s : WorkerState) (env : AttemptEnv) :
    (mockPreflight s env).2.counters.missed_tenures = s.counters.missed_tenures ∨
    ((mockPreflight s env).2.counters.missed_tenures = s.counters.missed_tenures + 1 ∧
      ∃ e, (mockPreflight s env).1 = some (.exitErr e)) := by
  unfold mockPreflight
  by_cases hmock : s.config.mock_mining = true
  · rw [if_pos hmock]
    rcases check_burn_tip_changed_cases s.burn_block.consensus_hash s.counters env.preTip with
      hc | ⟨_, hc⟩ <;> simp only [hc]
    · rcases hlb : load_block_parent_info s.burn_block.consensus_hash s.counters env.preLbpi
        with ⟨lres, lc⟩
      have hl := load_block_parent_info_cases s.burn_block.consensus_hash s.counters env.preLbpi
      rw [hlb] at hl
      dsimp only at hl
      cases lres with
      | ok info =>
        rcases hl with hl | ⟨_, hl1⟩
        · subst hl; simp
        · exact absurd hl1 (by simp)
      | error e =>
        rcases hl with hl | ⟨hl2, hl1⟩
        · subst hl; cases e <;> simp
        · cases hl1
          subst hl2
          right
          refine ⟨by simp [Counters.bump_missed_tenures], .BurnchainTipChanged, ?_⟩
          simp
    · right
      exact ⟨by simp [Counters.bump_missed_tenures], _, rfl⟩
  · rw [if_neg hmock]
    left; rfl

theorem mineAttempt_missed (s : WorkerState) (env : AttemptEnv) :
    (mineAttempt s env).2.counters.missed_tenures = s.counters.missed_tenures ∨
    ((mineAttempt s env).2.counters.missed_tenures = s.counters.missed_tenures + 1 ∧
      ∃ e, (mineAttempt s env).1 = .exitErr e) := by
  unfold mineAttempt
  rcases hpre : mockPreflight s env with ⟨step, s1⟩
  have hp := mockPreflight_missed s env
  rw [hpre] at hp
  dsimp only at hp
  cases step with
  | some st =>
    dsimp only
    rcases hp with hp | ⟨hp2, e, hpe⟩
    · left; exact hp
    · right
      exact ⟨hp2, e, Option.some.inj hpe⟩
  | none =>
    dsimp only
    rcases hp with hp | ⟨_, e, hpe⟩
    swap
    · exact absurd hpe (by simp)
    have hm := mine_block_missed s1 env.mine
    rcases hout : mine_block s1 env.mine with ⟨r, c, cch, bi⟩
    rw [hout] at hm
    dsimp only at hm
    dsimp only [applyMine]
    rcases hm with hm | ⟨hm2, hm1⟩
    · subst hm
      cases r with
      | ok x =>
        dsimp only
        rcases hv : validate_timestamp s1.config.min_time_between_blocks_ms x env.validateParent
          with e2 | b
        · left; exact hp
        · cases b
          · left; exact hp
          · left; exact hp
      | error e2 =>
        cases e2 <;> first
          | (left; exact hp)
          | (rename_i ce; cases ce <;> (left; exact hp))
    · subst hm1
      dsimp only
      right
      refine ⟨?_, _, rfl⟩
      show c.missed_tenures = s.counters.missed_tenures + 1
      rw [hm2]
      show s1.counters.missed_tenures + 1 = s.counters.missed_tenures + 1
      rw [hp]

theorem mineLoop_missed (envs : List AttemptEnv) (s : WorkerState) :
    (mineLoop s envs).1.counters.missed_tenures = s.counters.missed_tenures ∨
    ((mineLoop s envs).1.counters.missed_tenures = s.counters.missed_tenures + 1 ∧
      ∃ e, (mineLoop s envs).2 = .exitErr e) := by
  induction envs generalizing s with
  | nil => left; rfl
  | cons env rest ih =>
    unfold mineLoop
    rcases ha : mineAttempt s env with ⟨step, s1⟩
    have hA := mineAttempt_missed s env
    rw [ha] at hA
    dsimp only at hA
    cases step with
    | retry =>
      dsimp only
      rcases hA with hA | ⟨_, e, he⟩
      · rcases ih s1 with h | ⟨h1, h2⟩
        · left; rw [h, hA]
        · right; exact ⟨by rw [h1, hA], h2⟩
      · simp at he
    | found b =>
      dsimp only
      rcases hA with hA | ⟨_, e, he⟩
      · left; exact hA
      · simp at he
    | noneFound =>
      dsimp only
      rcases hA with hA | ⟨_, e, he⟩
      · left; exact hA
      · simp at he
    | exitErr e =>
      dsimp only
      rcases hA with hA | ⟨h1, _⟩
      · left; exact hA
      · right; exact ⟨h1, e, rfl⟩

theorem interimWait_missed (ch : Hash) (ts : List Hash) (c : Counters) :
    (interimWait ch c ts).1.missed_tenures = c.missed_tenures ∨
    ((interimWait ch c ts).1.missed_tenures = c.missed_tenures + 1 ∧
      (interimWait ch c ts).2.isSome = true) := by
  induction ts generalizing c with
  | nil => left; rfl
  | cons t ts ih =>
    unfold interimWait
    rcases check_burn_tip_changed_cases ch c t with hc | ⟨_, hc⟩ <;> simp only [hc]
    · exact ih c
    · right; exact ⟨rfl, rfl⟩

theorem interimPhase_missed (s : WorkerState) (env : IterEnv) :
    (interimPhase s env).1.counters.missed_tenures = s.counters.missed_tenures ∨
    ((interimPhase s env).1.counters.missed_tenures = s.counters.missed_tenures + 1 ∧
      ∃ e, (interimPhase s env).2 = .exitErr e) := by
  unfold interimPhase
  split
  · left; rfl
  · rcases hw : interimWait s.burn_block.consensus_hash s.counters env.interimTips with ⟨c, oe⟩
    have hW := interimWait_missed s.burn_block.consensus_hash env.interimTips s.counters
    rw [hw] at hW
    dsimp only at hW
    cases oe with
    | some e =>
      dsimp only
      rcases hW with hW | ⟨h1, _⟩
      · left; exact hW
      · right; exact ⟨h1, e, rfl⟩
    | none =>
      dsimp only
      rcases hW with hW | ⟨_, h2⟩
      · left; exact hW
      · simp at h2

theorem interimPhase_missed_of (s0 : WorkerState) (env : IterEnv) (m : Nat)
    (h : s0.counters.missed_tenures = m) :
    (interimPhase s0 env).1.counters.missed_tenures = m ∨
    ((interimPhase s0 env).1.counters.missed_tenures = m + 1 ∧
      ∃ e, (interimPhase s0 env).2 = .exitErr e) := by
  rcases interimPhase_missed s0 env with h1 | ⟨h1, h2⟩
  · left; rw [h1, h]
  · right; exact ⟨by rw [h1, h], h2⟩

theorem afterFound_missed (s : WorkerState) (env : IterEnv) (b : NakamotoBlock) :
    (afterFound s env b).1.counters.missed_tenures = s.counters.missed_tenures ∨
    ((afterFound s env b).1.counters.missed_tenures = s.counters.missed_tenures + 1 ∧
      ∃ e, (afterFound s env b).2 = .exitErr e) := by
  unfold afterFound
  dsimp only
  split
  · left; rfl
  · left; rfl
  · left; rfl
  · split
    · left; rfl
    · exact interimPhase_missed_of _ env _
        (bumpMinedCounters_missed s.counters s.last_block_mined)

theorem minerIteration_missed (s : WorkerState) (env : IterEnv) :
    (minerIteration s env).1.counters.missed_tenures = s.counters.missed_tenures ∨
    ((minerIteration s env).1.counters.missed_tenures = s.counters.missed_tenures + 1 ∧
      ∃ e, (minerIteration s env).2 = .exitErr e) := by
  unfold minerIteration
  rcases hl : mineLoop s env.attempts with ⟨s1, oc⟩
  have hL := mineLoop_missed env.attempts s
  rw [hl] at hL
  dsimp only at hL
  cases oc with
  | stalled =>
    dsimp only
    rcases hL with h | ⟨_, e, he⟩
    · left; exact h
    · simp at he
  | exitErr e =>
    dsimp only
    rcases hL with h | ⟨h1, _⟩
    · left; exact h
    · right; exact ⟨h1, e, rfl⟩
  | found b =>
    dsimp only
    rcases hL with h | ⟨_, e, he⟩
    · rcases afterFound_missed s1 env b with h2 | ⟨h2, h3⟩
      · left; rw [h2, h]
      · right; exact ⟨by rw [h2, h], h3⟩
    · simp at he
  | noneFound =>
    dsimp only
    rcases hL with h | ⟨_, e, he⟩
    · rcases interimPhase_missed s1 env with h2 | ⟨h2, h3⟩
      · left; rw [h2, h]
      · right; exact ⟨by rw [h2, h], h3⟩
    · simp at he

theorem run_miner_missed (envs : List IterEnv) (s : WorkerState) :
    (run_miner s envs).1.counters.missed_tenures ≤ s.counters.missed_tenures + 1 := by
  induction envs generalizing s with
  | nil => simp [run_miner]
  | cons env rest ih =>
    unfold run_miner
    rcases hi : minerIteration s env with ⟨s1, r⟩
    have hI := minerIteration_missed s env
    rw [hi] at hI
    dsimp only at hI
    cases r with
    | exitErr e =>
      dsimp only
      rcases hI with h | ⟨h1, _⟩ <;> omega
    | stalled =>
      dsimp only
      rcases hI with h | ⟨h1, _⟩ <;> omega
    | next =>
      dsimp only
      rcases hI with h | ⟨_, e, he⟩
      · have := ih s1
        omega
      · simp at he

/-! Cache evolution helpers -/

theorem mine_block_cache (s : WorkerState) (env : MineEnv) :
    (mine_block s env).cache = (load_signer_set s.signer_set_cache env.signer_load).2 := by
  unfold mine_block
  rcases hload : load_signer_set s.signer_set_cache env.signer_load with ⟨res, cache1⟩
  cases res with
  | error e => rfl
  | ok reward_set =>
    rcases hb : mine_block_body s reward_set env with ⟨r, c, bi⟩
    rfl

theorem mine_block_cache_mono (s : WorkerState) (env : MineEnv) (rs : RewardSet)
    (h : s.signer_set_cache = some rs) : (mine_block s env).cache = some rs := by
  rw [mine_block_cache, h, load_signer_set_cached]

theorem gather_signatures_cache_mono (cfg : MinerConfig) (rs : RewardSet) (env : GatherEnv) :
    (gather_signatures cfg (some rs) env).cache = some rs := by
  unfold gather_signatures
  simp only [load_signer_set_cached]
  repeat' split
  all_goals rfl

theorem mockPreflight_cache (s : WorkerState) (env : AttemptEnv) :
    (mockPreflight s env).2.signer_set_cache = s.signer_set_cache := by
  unfold mockPreflight
  split
  · split
    · rfl
    · split <;> rfl
  · rfl

theorem mineAttempt_cache_mono (s : WorkerState) (env : AttemptEnv) (rs : RewardSet)
    (h : s.signer_set_cache = some rs) :
    (mineAttempt s env).2.signer_set_cache = some rs := by
  unfold mineAttempt
  rcases hpre : mockPreflight s env with ⟨step, s1⟩
  have hc : s1.signer_set_cache = some rs := by
    have hp := mockPreflight_cache s env
    rw [hpre] at hp
    dsimp only at hp
    rw [hp, h]
  cases step with
  | some st => exact hc
  | none =>
    dsimp only
    have hm := mine_block_cache_mono s1 env.mine rs hc
    rcases hout : mine_block s1 env.mine with ⟨r, c, cch, bi⟩
    rw [hout] at hm
    dsimp only at hm
    dsimp only [applyMine]
    cases r with
    | ok x =>
      dsimp only
      rcases hv : validate_timestamp s1.config.min_time_between_blocks_ms x env.validateParent
        with e2 | b
      · exact hm
      · cases b
        · exact hm
        · exact hm
    | error e2 =>
      cases e2 <;> first
        | exact hm
        | (rename_i ce; cases ce <;> exact hm)

theorem mineLoop_cache_mono (envs : List AttemptEnv) (s : WorkerState) (rs : RewardSet)
    (h : s.signer_set_cache = some rs) :
    (mineLoop s envs).1.signer_set_cache = some rs := by
  induction envs generalizing s with
  | nil => exact h
  | cons env rest ih =>
    unfold mineLoop
    rcases ha : mineAttempt s env with ⟨step, s1⟩
    have hA := mineAttempt_cache_mono s env rs h
    rw [ha] at hA
    dsimp only at hA
    cases step with
    | retry => exact ih s1 hA
    | found b => exact hA
    | noneFound => exact hA
    | exitErr e => exact hA

theorem interimPhase_cache (s : WorkerState) (env : IterEnv) :
    (interimPhase s env).1.signer_set_cache = s.signer_set_cache := by
  unfold interimPhase
  split
  · rfl
  · split <;> rfl

theorem afterFound_cache_mono (s : WorkerState) (env : IterEnv) (b : NakamotoBlock)
    (rs : RewardSet) (h : s.signer_set_cache = some rs) :
    (afterFound s env b).1.signer_set_cache = some rs := by
  unfold afterFound
  have hg : (gather_signatures s.config s.signer_set_cache env.gather).cache = some rs := by
    rw [h]
    exact gather_signatures_cache_mono s.config rs env.gather
  dsimp only
  split
  · exact hg
  · exact hg
  · exact hg
  · split
    · exact hg
    · rw [interimPhase_cache]
      exact hg

theorem minerIteration_cache_mono (s : WorkerState) (env : IterEnv) (rs : RewardSet)
    (h : s.signer_set_cache = some rs) :
    (minerIteration s env).1.signer_set_cache = some rs := by
  unfold minerIteration
  rcases hl : mineLoop s env.attempts with ⟨s1, oc⟩
  have hL := mineLoop_cache_mono env.attempts s rs h
  rw [hl] at hL
  dsimp only at hL
  cases oc with
  | stalled => exact hL
  | exitErr e => exact hL
  | found b => exact afterFound_cache_mono s1 env b rs hL
  | noneFound => rw [interimPhase_cache]; exact hL

theorem run_miner_cache_mono (envs : List IterEnv) (s : WorkerState) (rs : RewardSet)
    (h : s.signer_set_cache = some rs) :
    (run_miner s envs).1.signer_set_cache = some rs := by
  induction envs generalizing s with
  | nil => exact h
  | cons env rest ih =>
    unfold run_miner
    rcases hi : minerIteration s env with ⟨s1, r⟩
    have hI := minerIteration_cache_mono s env rs h
    rw [hi] at hI
    dsimp only at hI
    cases r with
    | exitErr e => exact hI
    | stalled => exact hI
    | next => exact ih s1 hI

end NakamotoMiner

namespace NakamotoMiner

/-! ## Claims C1, C2, C10 -/

/-- C1: (code evaluation at the failing input) the source guards the
`mined_tenures` bump with `!self.last_block_mined.is_none()`, so on the
first block of a tenure (`last_block_mined = None` before broadcast)
only `mined_blocks` is bumped and `mined_tenures` is left unchanged,
while on a later block (`last_block_mined = Some _`) `mined_tenures` is
bumped — the opposite of the claim and of the code's own comment. -/
theorem c1_first_block_does_not_bump_mined_tenures :
    bumpMinedCounters ⟨0, 0, 0⟩ none = ⟨1, 0, 0⟩ ∧
    bumpMinedCounters ⟨0, 0, 0⟩
        (some ⟨⟨0, 0, 0, 0, 0, []⟩, []⟩) = ⟨1, 1, 0⟩ := by
  constructor <;> rfl

/-- C2 counterexample: with `accept_block` returning `false`, no
fault-injection skip, and a drop probability of zero (so the drop cannot
fire), `broadcast_p2p` commits and returns `Ok` but does **not** attempt
the P2P push — refuting the claim that the push is still attempted. -/
theorem c2_counterexample :
    (broadcast_p2p ⟨false, none, 0, false, 0, none, none⟩
        ⟨false, true, true, .ok false, true, 0⟩).result = .ok () ∧
    (broadcast_p2p ⟨false, none, 0, false, 0, none, none⟩
        ⟨false, true, true, .ok false, true, 0⟩).committed = true ∧
    ¬ (broadcast_p2p ⟨false, none, 0, false, 0, none, none⟩
        ⟨false, true, true, .ok false, true, 0⟩).pushed = true := by
  refine ⟨rfl, rfl, ?_⟩
  decide

/-- C2 (amended): when `accept_block` returns `false` and the preceding
store operations succeed, `broadcast_p2p` commits the staging
transaction, returns `Ok(())`, and returns *before* the fault-injection
check and the P2P push, so the push is never attempted; the loop
proceeds without error. -/
theorem c2_accept_false_skips_push (cfg : MinerConfig) (env : BroadcastP2PEnv)
    (hskip : env.skip = false) (hidx : env.index_handle_ok = true)
    (hstg : env.staging_ok = true) (hacc : env.accept_result = .ok false)
    (hcommit : env.commit_ok = true) :
    broadcast_p2p cfg env = ⟨.ok (), true, false⟩ := by
  simp [broadcast_p2p, hskip, hidx, hstg, hacc, hcommit]

/-- C2 witness: the amended theorem applied at a concrete environment. -/
theorem c2_witness :
    broadcast_p2p ⟨false, none, 0, false, 0, none, some 50⟩
        ⟨false, true, true, .ok false, true, 7⟩ = ⟨.ok (), true, false⟩ :=
  c2_accept_false_skips_push _ _ rfl rfl rfl rfl rfl

/-- C10: `validate_timestamp_info` computes the gap with saturating
subtraction, so whenever the parent timestamp is at least the candidate
timestamp the computed gap is 0 ms (no underflow), and the check passes
exactly when `min_time_between_blocks_ms = 0`. -/
theorem c10_saturating_timestamp (min_ms cur : Nat) (hdr : StacksHeaderInfo)
    (h : cur ≤ parentTimestamp hdr) :
    timeSinceParentMs cur hdr = 0 ∧
    (validate_timestamp_info min_ms cur hdr = true ↔ min_ms = 0) := by
  have hz : timeSinceParentMs cur hdr = 0 := by
    unfold timeSinceParentMs
    omega
  refine ⟨hz, ?_⟩
  unfold validate_timestamp_info
  rw [hz]
  constructor
  · intro hv
    by_contra hne
    have : 0 < min_ms := Nat.pos_of_ne_zero hne
    simp [this] at hv
  · intro hm
    simp [hm]

/-- C10 witness: parent timestamp 10, candidate timestamp 5 — gap is 0
and the check passes exactly for a zero minimum gap. -/
theorem c10_witness :
    timeSinceParentMs 5 ⟨0, 0, 0, 4, true, 10⟩ = 0 ∧
    (validate_timestamp_info 1000 5 ⟨0, 0, 0, 4, true, 10⟩ = true ↔ (1000 : Nat) = 0) :=
  c10_saturating_timestamp 1000 5 ⟨0, 0, 0, 4, true, 10⟩ (by decide)

/-- C4: `make_tenure_start_info` emits (1) on the first block of a
`BlockFound` tenure a `TenureChange(BlockFound)` at the coinbase nonce
and a `Coinbase` at nonce+1 carrying the VRF proof; (2) on the first
block of an `Extended` tenure only a `TenureChange(Extended)` whose burn
view is the directive's and whose `previous_tenure_blocks` is the tenure
length read at the parent block; and (3) in every other case
(`last_block_mined` is `Some`, or `parent_tenure` is `None`) neither
transaction. -/
theorem c4_make_tenure_start_info (s : WorkerState) (parent_block_info : ParentStacksBlockInfo)
    (vrf_proof : Nat) (target_epoch_id : StacksEpochId)
    (tenure_len : Except ChainstateError Nat) :
    (∀ pti, parent_block_info.parent_tenure = some pti → s.last_block_mined = none →
      s.reason = .BlockFound →
      ∃ tc cb,
        make_tenure_start_info s parent_block_info vrf_proof target_epoch_id tenure_len
          = .ok ⟨some cb, some tc⟩ ∧
        tc.origin_nonce = parent_block_info.coinbase_nonce ∧
        (∃ p, tc.payload = .TenureChange p ∧ p.cause = .BlockFound) ∧
        cb.origin_nonce = parent_block_info.coinbase_nonce + 1 ∧
        (∃ r, cb.payload = .Coinbase 0 r (some vrf_proof))) ∧
    (∀ pti bv n, parent_block_info.parent_tenure = some pti → s.last_block_mined = none →
      s.reason = .Extended bv → tenure_len = .ok n →
      ∃ tc,
        make_tenure_start_info s parent_block_info vrf_proof target_epoch_id tenure_len
          = .ok ⟨none, some tc⟩ ∧
        tc.origin_nonce = parent_block_info.coinbase_nonce ∧
        (∃ p, tc.payload = .TenureChange p ∧ p.cause = .Extended ∧
          p.burn_view_consensus_hash = bv ∧ p.previous_tenure_blocks = n)) ∧
    ((s.last_block_mined.isSome ∨ parent_block_info.parent_tenure = none) →
      make_tenure_start_info s parent_block_info vrf_proof target_epoch_id tenure_len
        = .ok ⟨none, none⟩) := by
  refine ⟨?_, ?_, ?_⟩
  · intro pti hpt hlast hreason
    have heq : make_tenure_start_info s parent_block_info vrf_proof target_epoch_id tenure_len
        = .ok ⟨some (generate_coinbase_tx s.config (parent_block_info.coinbase_nonce + 1)
                  target_epoch_id vrf_proof),
               some (generate_tenure_change_tx s.config parent_block_info.coinbase_nonce
                  ⟨s.burn_election_block.consensus_hash, pti.parent_tenure_consensus_hash,
                   s.burn_election_block.consensus_hash,
                   parent_block_info.stacks_parent_header.index_block_hash,
                   pti.parent_tenure_blocks, .BlockFound, s.keychain_pkh⟩)⟩ := by
      simp [make_tenure_start_info, hpt, hlast, hreason]
    exact ⟨_, _, heq, rfl, ⟨_, rfl, rfl⟩, rfl, ⟨_, rfl⟩⟩
  · intro pti bv n hpt hlast hreason hlen
    have heq : make_tenure_start_info s parent_block_info vrf_proof target_epoch_id tenure_len
        = .ok ⟨none,
               some (generate_tenure_change_tx s.config parent_block_info.coinbase_nonce
                  (TenureChangePayload.extend
                    ⟨s.burn_election_block.consensus_hash, pti.parent_tenure_consensus_hash,
                     s.burn_election_block.consensus_hash,
                     parent_block_info.stacks_parent_header.index_block_hash,
                     pti.parent_tenure_blocks, .BlockFound, s.keychain_pkh⟩
                    bv parent_block_info.stacks_parent_header.index_block_hash n))⟩ := by
      simp [make_tenure_start_info, hpt, hlast, hreason, hlen]
    exact ⟨_, heq, rfl, ⟨_, rfl, rfl, rfl, rfl⟩⟩
  · intro h
    rcases h with h | h
    · rcases hsome : parent_block_info.parent_tenure with _ | pti
      · simp [make_tenure_start_info, hsome]
      · simp [make_tenure_start_info, hsome, h]
    · simp [make_tenure_start_info, h]

/-- C4 witness: the no-tenure-change case applied at a concrete input
with `parent_tenure = none`. -/
theorem c4_witness :
    make_tenure_start_info
      ⟨⟨false, some 1, 1000, false, 5, none, none⟩, 11, none,
        ⟨9, 100, 50, 77⟩, ⟨9, 100, 50, 77⟩, 3, .BlockFound, none, ⟨0, 0, 0⟩⟩
      ⟨⟨9, 7, 3, 90, true, 100⟩, 4, none⟩ 5 30 (.ok 3) = .ok ⟨none, none⟩ :=
  (c4_make_tenure_start_info _ _ 5 30 (.ok 3)).2.2 (Or.inr rfl)

/-- C5: once the chosen parent header reaches
`ParentStacksBlockInfo::lookup`, a canonical burn tip whose consensus
hash differs from the worker's `burn_block` makes the resolution fail
with `BurnchainTipChanged`, with `missed_tenures` bumped by
`load_block_parent_info` and no `ParentStacksBlockInfo` produced. -/
theorem c5_burn_tip_change_during_lookup (burn_block_ch : Hash) (counters : Counters)
    (env : LbpiEnv) (tip : Hash × Nat) (hdr : StacksHeaderInfo)
    (htip : env.stacks_tip = some tip)
    (hhdr : chooseParentHeader env = .ok hdr)
    (hch : env.lookup.burn_chain_tip_ch ≠ burn_block_ch) :
    load_block_parent_info burn_block_ch counters env
      = (.error .BurnchainTipChanged, counters.bump_missed_tenures) := by
  simp [load_block_parent_info, htip, hhdr, ParentStacksBlockInfo.lookup, hch]

/-- C5 witness: the theorem applied at a concrete environment where the
re-read burn tip (hash 1) differs from the worker's burn block (hash 0). -/
theorem c5_witness :
    load_block_parent_info 0 ⟨2, 3, 4⟩
      ⟨some (9, 5), .ok (some ⟨9, 7, 3, 90, true, 100⟩), .ok none, .ok none, .ok none,
        ⟨1, none, none, true, 4⟩⟩
      = (.error .BurnchainTipChanged, ⟨2, 3, 5⟩) :=
  c5_burn_tip_change_during_lookup 0 ⟨2, 3, 4⟩ _ (9, 5) ⟨9, 7, 3, 90, true, 100⟩
    rfl rfl (by decide)

/-- C3 counterexample: with `min_time_between_blocks_ms = 1500`, parent
timestamp 0 s and an attempt at 1 s, `mine_block` returns
`MiningFailure(MinerAborted)` (since `1 * 1000 = 1000 < 1500`), yet the
claim's condition `now − parent < min_time_between_blocks_ms / 1000`
(integer division: `1 < 1`) is false — so the claimed "exactly when"
fails. -/
theorem c3_counterexample :
    (mine_block cxState cxMineEnv).result = .error (.MiningFailure .MinerAborted) ∧
    ¬ ((1 : Nat) - parentTimestamp cxParentHeader
        < cxState.config.min_time_between_blocks_ms / 1000) := by
  constructor
  · decide
  · decide

/-- C3 (amended): the timestamp pre-check aborts on the u64 product,
not on a seconds quotient: when `mine_block` reaches the check, it
returns `MiningFailure(MinerAborted)` **iff**
`saturating_sub(now, parent_timestamp) * 1000 < min_time_between_blocks_ms`
(evaluated in u64 arithmetic); and any candidate passing
`validate_timestamp_info` has `(timestamp − parent_timestamp) * 1000 ≥
min_time_between_blocks_ms` in exact arithmetic. -/
theorem c3_timestamp_gate (s : WorkerState) (env : MineEnv) (rs : RewardSet)
    (ep : StacksEpochId) (pinfo : ParentStacksBlockInfo)
    (hcache : s.signer_set_cache = some rs)
    (htip1 : env.tip1 = s.burn_block.consensus_hash)
    (hepoch : env.epoch_query = some ep)
    (hlbpi : load_block_parent_info s.burn_block.consensus_hash s.counters env.lbpi
      = (.ok pinfo, s.counters))
    (hguard : (s.last_block_mined.isNone && pinfo.parent_tenure.isNone) = false)
    (htsi : ∃ tsi, make_tenure_start_info s pinfo env.vrf_proof ep env.tenure_len = .ok tsi)
    (hbuilder : env.builder ≠ .error .MinerAborted) :
    ((mine_block s env).result = .error (.MiningFailure .MinerAborted) ↔
      timeSinceParentMs env.now pinfo.stacks_parent_header
        < s.config.min_time_between_blocks_ms) ∧
    (∀ (min_ms cur : Nat) (hdr : StacksHeaderInfo),
      validate_timestamp_info min_ms cur hdr = true →
      min_ms ≤ (cur - parentTimestamp hdr) * 1000) := by
  constructor
  · rw [mine_block_result s env rs hcache]
    rcases htsi with ⟨tsi, htsi⟩
    unfold mine_block_body
    rw [htip1]
    simp only [check_burn_tip_changed_ok, hepoch, hlbpi, hguard, htsi]
    by_cases hts : timeSinceParentMs env.now pinfo.stacks_parent_header
        < s.config.min_time_between_blocks_ms
    · have hv := (validate_timestamp_info_eq_false
        s.config.min_time_between_blocks_ms env.now pinfo.stacks_parent_header).2 hts
      simp [hv, hts]
    · have hv : validate_timestamp_info s.config.min_time_between_blocks_ms env.now
          pinfo.stacks_parent_header = true := by
        rcases hb : validate_timestamp_info s.config.min_time_between_blocks_ms env.now
            pinfo.stacks_parent_header with _ | _
        · exact absurd ((validate_timestamp_info_eq_false _ _ _).1 hb) hts
        · rfl
      refine iff_of_false ?_ hts
      simp only [hv, Bool.not_true, Bool.false_eq_true, if_false]
      cases hidx : env.index_handle_ok with
      | false => simp
      | true =>
        simp only [Bool.not_true, Bool.false_eq_true, if_false]
        cases hbld : env.builder with
        | error e =>
          have hne : e ≠ ChainstateError.MinerAborted := by
            intro hE
            apply hbuilder
            rw [hbld, hE]
          simp [hne]
        | ok b0 =>
          dsimp only
          split
          · simp
          · cases hsig : env.sign_result with
            | none => simp
            | some sig =>
              rcases check_burn_tip_changed_cases s.burn_block.consensus_hash s.counters
                env.tip2 with hc2 | ⟨_, hc2⟩ <;> simp [hc2]
  · intro m cur hdr hv
    have hmod : ¬ timeSinceParentMs cur hdr < m := by
      intro hlt
      rw [(validate_timestamp_info_eq_false m cur hdr).2 hlt] at hv
      exact Bool.false_ne_true hv
    push_neg at hmod
    calc m ≤ timeSinceParentMs cur hdr := hmod
      _ ≤ (cur - parentTimestamp hdr) * 1000 := Nat.mod_le _ _

/-- C3 witness: the amended gate applied at a 1 s gap against a
1000 ms minimum (the check passes, the block is not aborted). -/
theorem c3_witness :
    (mine_block sampleState sampleMineEnv).result
        = .error (.MiningFailure .MinerAborted) ↔
      timeSinceParentMs 101 sampleParentHeader < 1000 :=
  (c3_timestamp_gate sampleState sampleMineEnv ⟨[]⟩ 30 ⟨sampleParentHeader, 4, some ⟨1, 9⟩⟩
    rfl rfl rfl (by decide) rfl ⟨_, rfl⟩ (by decide)).1

/-- C6: on the first block of a worker (`last_block_mined = None`), a
resolved parent with `parent_tenure = None` makes `mine_block` fail with
`ParentNotFound` before the block builder is invoked. -/
theorem c6_first_block_requires_parent_tenure (s : WorkerState) (env : MineEnv)
    (rs : RewardSet) (ep : StacksEpochId) (pinfo : ParentStacksBlockInfo)
    (hcache : s.signer_set_cache = some rs)
    (htip1 : env.tip1 = s.burn_block.consensus_hash)
    (hepoch : env.epoch_query = some ep)
    (hlbpi : load_block_parent_info s.burn_block.consensus_hash s.counters env.lbpi
      = (.ok pinfo, s.counters))
    (hpt : pinfo.parent_tenure = none)
    (hlast : s.last_block_mined = none) :
    (mine_block s env).result = .error .ParentNotFound ∧
    (mine_block s env).builder_invoked = false := by
  have hg : (s.last_block_mined.isNone && pinfo.parent_tenure.isNone) = true := by
    rw [hpt, hlast]
    rfl
  constructor
  · rw [mine_block_result s env rs hcache]
    unfold mine_block_body
    rw [htip1]
    simp [check_burn_tip_changed_ok, hepoch, hlbpi, hg]
  · rw [mine_block_builder_invoked s env rs hcache]
    unfold mine_block_body
    rw [htip1]
    simp [check_burn_tip_changed_ok, hepoch, hlbpi, hg]

/-- C6 witness: the theorem applied at a concrete environment whose
resolved parent is not in the parent tenure. -/
theorem c6_witness :
    (mine_block sampleState c6MineEnv).result = .error .ParentNotFound ∧
    (mine_block sampleState c6MineEnv).builder_invoked = false :=
  c6_first_block_requires_parent_tenure sampleState c6MineEnv ⟨[]⟩ 30
    ⟨sampleParentHeader, 4, none⟩ rfl rfl rfl (by decide) rfl rfl

/-- C7: in mock-mining mode, `gather_signatures` returns the loaded
reward set with an empty signature vector and never instantiates a
signature coordinator. -/
theorem c7_mock_mining_short_circuit (cfg : MinerConfig) (cache : Option RewardSet)
    (env : GatherEnv) (k : Nat) (rs : RewardSet)
    (hkey : cfg.mining_key = some k)
    (hsort : env.sortdb_ok = true)
    (hmock : cfg.mock_mining = true)
    (hload : (load_signer_set cache env.signer_load).1 = .ok rs) :
    (gather_signatures cfg cache env).result = .ok (rs, []) ∧
    (gather_signatures cfg cache env).coordinator_instantiated = false := by
  unfold gather_signatures
  rcases hl : load_signer_set cache env.signer_load with ⟨lr, c1⟩
  rw [hl] at hload
  dsimp only at hload
  subst hload
  simp [hkey, hsort, hmock]

/-- C7 witness: the theorem applied at a concrete mock-mining
configuration. -/
theorem c7_witness :
    (gather_signatures c7Config (some ⟨[2]⟩) ⟨true, .ok ⟨[2]⟩, true, .ok []⟩).result
        = .ok (⟨[2]⟩, []) ∧
    (gather_signatures c7Config (some ⟨[2]⟩)
        ⟨true, .ok ⟨[2]⟩, true, .ok []⟩).coordinator_instantiated = false :=
  c7_mock_mining_short_circuit c7Config (some ⟨[2]⟩) ⟨true, .ok ⟨[2]⟩, true, .ok []⟩
    1 ⟨[2]⟩ rfl rfl rfl rfl

/-- C8: the signer-set cache is stable: (1) once populated,
`load_signer_set` returns the cached set unchanged; (2) a first
successful load populates the cache with the loaded set; (3) no
operation of the worker loop ever changes a populated cache — it
survives any `run_miner` execution intact. -/
theorem c8_signer_set_cache_stable :
    (∀ (rs : RewardSet) (load : Except Unit RewardSet),
      load_signer_set (some rs) load = (.ok rs, some rs)) ∧
    (∀ (rs : RewardSet) (load : Except Unit RewardSet), load = .ok rs →
      load_signer_set none load = (.ok rs, some rs)) ∧
    (∀ (envs : List IterEnv) (s : WorkerState) (rs : RewardSet),
      s.signer_set_cache = some rs →
      (run_miner s envs).1.signer_set_cache = some rs) := by
  refine ⟨fun rs load => rfl, ?_, ?_⟩
  · intro rs load h
    subst h
    rfl
  · intro envs s rs h
    exact run_miner_cache_mono envs s rs h

/-- C8 witness: the three parts applied at concrete values. -/
theorem c8_witness :
    load_signer_set (some ⟨[3]⟩) (.error ()) = (.ok ⟨[3]⟩, some ⟨[3]⟩) ∧
    load_signer_set none (.ok ⟨[3]⟩) = (.ok ⟨[3]⟩, some ⟨[3]⟩) ∧
    (run_miner c8State []).1.signer_set_cache = some ⟨[3]⟩ :=
  ⟨c8_signer_set_cache_stable.1 ⟨[3]⟩ (.error ()),
   c8_signer_set_cache_stable.2.1 ⟨[3]⟩ (.ok ⟨[3]⟩) rfl,
   c8_signer_set_cache_stable.2.2 [] c8State ⟨[3]⟩ rfl⟩

/-- C9 counterexample: no execution of the worker loop can increment
`missed_tenures` by two or more — every code path that observes the
divergence exits the worker at once, so "more than once per worker" is
impossible. -/
theorem c9_counterexample :
    ¬ ∃ (s : WorkerState) (envs : List IterEnv),
      s.counters.missed_tenures + 2 ≤ (run_miner s envs).1.counters.missed_tenures := by
  rintro ⟨s, envs, h⟩
  have hb := run_miner_missed envs s
  omega

/-- C9 (amended): every `check_burn_tip_changed` call that observes a
differing canonical burn tip bumps `missed_tenures` before returning
`BurnchainTipChanged`; but since every such bump is immediately followed
by worker exit, a worker's whole run increments `missed_tenures` at most
once. -/
theorem c9_missed_tenures_bump :
    (∀ (ch : Hash) (c : Counters) (t : Hash), t ≠ ch →
      check_burn_tip_changed ch c t
        = (.error .BurnchainTipChanged, c.bump_missed_tenures)) ∧
    (∀ (envs : List IterEnv) (s : WorkerState),
      (run_miner s envs).1.counters.missed_tenures ≤ s.counters.missed_tenures + 1) := by
  constructor
  · intro ch c t h
    simp [check_burn_tip_changed, h]
  · exact fun envs s => run_miner_missed envs s

/-- C9 witness: a divergent tip (1 ≠ 0) bumps the counter and errors;
and a concrete run respects the at-most-one bound. -/
theorem c9_witness :
    check_burn_tip_changed 0 ⟨0, 0, 0⟩ 1 = (.error .BurnchainTipChanged, ⟨0, 0, 1⟩) ∧
    (run_miner sampleState []).1.counters.missed_tenures
      ≤ sampleState.counters.missed_tenures + 1 :=
  ⟨c9_missed_tenures_bump.1 0 ⟨0, 0, 0⟩ 1 (by decide),
   c9_missed_tenures_bump.2 [] sampleState⟩

end NakamotoMiner
